import Mathlib

/-!
Verification of the page-extractor utility (`extra_page.py`).

The program's single operation `extract_pages(pdf_path, page_ranges, offset)`
is embedded shallowly:

* the pypdf reader is modelled by the parsed source document, an ordered list
  of pages (`List Page`, polymorphic in the page-content type);
* the filesystem environment at the source path is a `PdfEnv`: whether the
  path exists (`os.path.exists`) and the parse outcome of `PdfReader`
  (`none` = the parse raises);
* each file write can succeed or fail; the environment's behaviour is a
  predicate on output paths (`docWriteOk` for the `open(..., "wb")` document
  write, `mdWriteOk` for the companion `open(..., "w")` write);
* the run's outcome is the ordered list of successful file writes, the log of
  console messages, and either normal return or a raised exception.
-/

set_option maxHeartbeats 1000000

namespace ExtraPage

/-- Content of a file written by the program: an output document holding a
list of copied pages, or a text file with literal string content (the
companion markdown file is written with empty content). -/
inductive FileContent (Page : Type) where
  | pdf (pages : List Page)
  | text (s : String)
  deriving DecidableEq, Repr

/-- Console messages printed by `extract_pages`, in order. -/
inductive Event where
  | totalPagesMsg (total : Nat)
  | warnNonPositive (start stop offset : Int)
  | warnExceedsTotal (start stop offset : Int) (total : Nat)
  | warnInverted (start stop offset : Int)
  | savedPdf (start stop : Int) (path : String)
  | createdMd (path : String)
  | errorMd (path : String)
  | errorProcessing
  deriving DecidableEq, Repr

/-- The per-range skip warnings (lines 55, 59, 63 of the source). -/
def Event.isWarning : Event → Bool
  | .warnNonPositive _ _ _ => true
  | .warnExceedsTotal _ _ _ _ => true
  | .warnInverted _ _ _ => true
  | _ => false

/-- Exceptions that `extract_pages` can raise to its caller:
`FileNotFoundError` for a missing source, the re-raised `PdfReader` parse
exception, and a re-raised exception from a document-file write. -/
inductive ExtractError where
  | sourceNotFound (path : String)
  | sourceReadError
  | writeError (path : String)
  deriving DecidableEq, Repr

/-- Outcome of a call to `extract_pages`: normal return or a raised
exception, in both cases together with the file writes that took effect
before returning/raising and the log produced. -/
inductive ExtractResult (Page : Type) where
  | ok (writes : List (String × FileContent Page)) (log : List Event)
  | err (e : ExtractError) (writes : List (String × FileContent Page)) (log : List Event)
  deriving DecidableEq, Repr

/-- The file writes a run performed, in order. -/
def writesOf : ExtractResult Page → List (String × FileContent Page)
  | .ok writes _ => writes
  | .err _ writes _ => writes

/-- The log a run printed. -/
def logOf : ExtractResult Page → List Event
  | .ok _ log => log
  | .err _ _ log => log

/-- The exception a run raised, if any. -/
def errOf : ExtractResult Page → Option ExtractError
  | .ok _ _ => none
  | .err e _ _ => some e

/-- The filesystem/pypdf environment at the source path: whether
`os.path.exists(pdf_path)` holds, and the result of `PdfReader(pdf_path)`
(`none` when parsing raises, `some pages` when it yields that page list). -/
structure PdfEnv (Page : Type) where
  present : Bool
  parse : Option (List Page)
  deriving DecidableEq, Repr

/-- Model of Python's `str.endswith`: the characters of `suff` are a suffix
of the characters of `s`. -/
def endswith (s suff : String) : Bool :=
  suff.data.isSuffixOf s.data

/-- Model of `os.path.dirname` (posixpath): everything up to the last `/`,
with trailing slashes stripped unless the head is all slashes; `""` when
there is no slash. -/
def dirname (path : String) : String :=
  let head := ((path.data.reverse).dropWhile (fun c => c ≠ '/')).reverse
  if head ≠ [] ∧ ¬ head.all (fun c => c = '/') then
    String.mk ((head.reverse.dropWhile (fun c => c = '/')).reverse)
  else String.mk head

/-- Model of `os.path.join dir name` for a relative `name`: concatenation
with a `/` separator, not doubled when `dir` already ends in `/`. -/
def joinPath (dir name : String) : String :=
  if endswith dir "/" then dir ++ name else dir ++ "/" ++ name

/-- Lines 37-39 of the source: the output directory is the source path's
directory, `"."` when that is empty. -/
def pdf_dir_of (pdf_path : String) : String :=
  if dirname pdf_path = "" then "." else dirname pdf_path

/-- Lines 75-77 of the source: the document output filename is the
descriptor's base name, with `".pdf"` appended when the base name does not
already end with `".pdf"`. -/
def pdf_output_filename (base_filename : String) : String :=
  if endswith base_filename ".pdf" then base_filename else base_filename ++ ".pdf"

/-- Line 90 of the source: the companion filename is the base name plus
`".md"`, with no extension rule applied. -/
def md_output_filename (base_filename : String) : String :=
  base_filename ++ ".md"

/-- Lines 70-71 of the source: the pages added to the writer, i.e.
`reader.pages[page_num]` for `page_num in range(actual_start - 1, actual_end)`
(0-based indices `actual_start - 1, ..., actual_end - 1`). -/
def extractedPages (pages : List Page) (actual_start actual_end : Int) : List Page :=
  (List.range' (actual_start - 1).toNat (actual_end + 1 - actual_start).toNat).filterMap
    (fun page_num => pages.get? page_num)

/-- State accumulated by the descriptor loop: the writes performed, the log
printed, and — when a document-file write raised — the path at which it did
(`aborted = some path` means the exception is propagating; no further
descriptor is processed). -/
structure ProcResult (Page : Type) where
  writes : List (String × FileContent Page)
  log : List Event
  aborted : Option String
  deriving DecidableEq, Repr

/-- Lines 48-99 of the source: the loop over `page_ranges`. Each descriptor
`(start, end, base_filename)` is offset, bounds-checked (skip with a warning
on violation), and, if in range, its pages are copied into a new document
written at the joined output path; then the empty companion file is written,
its failure only logged (lines 94-99). A document-write failure escapes the
loop (it is only caught by the function's outer handler, which re-raises). -/
def processRanges (pages : List Page) (total_pages : Nat) (offset : Int) (pdf_dir : String)
    (docWriteOk mdWriteOk : String → Bool) :
    List (Int × Int × String) → ProcResult Page
  | [] => ⟨[], [], none⟩
  | (start, stop, base_filename) :: rest =>
    let actual_start := start + offset
    let actual_end := stop + offset
    if actual_start < 1 ∨ actual_end < 1 then
      let r := processRanges pages total_pages offset pdf_dir docWriteOk mdWriteOk rest
      ⟨r.writes, .warnNonPositive start stop offset :: r.log, r.aborted⟩
    else if actual_start > (total_pages : Int) ∨ actual_end > (total_pages : Int) then
      let r := processRanges pages total_pages offset pdf_dir docWriteOk mdWriteOk rest
      ⟨r.writes, .warnExceedsTotal start stop offset total_pages :: r.log, r.aborted⟩
    else if actual_start > actual_end then
      let r := processRanges pages total_pages offset pdf_dir docWriteOk mdWriteOk rest
      ⟨r.writes, .warnInverted start stop offset :: r.log, r.aborted⟩
    else
      let content := extractedPages pages actual_start actual_end
      let output_path := joinPath pdf_dir (pdf_output_filename base_filename)
      if docWriteOk output_path then
        let md_output_path := joinPath pdf_dir (md_output_filename base_filename)
        let r := processRanges pages total_pages offset pdf_dir docWriteOk mdWriteOk rest
        if mdWriteOk md_output_path then
          ⟨(output_path, .pdf content) :: (md_output_path, .text "") :: r.writes,
            .savedPdf start stop output_path :: .createdMd md_output_path :: r.log,
            r.aborted⟩
        else
          ⟨(output_path, .pdf content) :: r.writes,
            .savedPdf start stop output_path :: .errorMd md_output_path :: r.log,
            r.aborted⟩
      else
        ⟨[], [], some output_path⟩

/-- Lines 13-104 of the source, `extract_pages(pdf_path, page_ranges, offset)`:
raise `FileNotFoundError` when the source path does not exist; otherwise
compute the source directory (`"."` when empty), parse the source (a parse
failure is printed by the outer handler and re-raised), and run the
descriptor loop; a document-write exception escaping the loop is likewise
printed and re-raised. -/
def extract_pages (env : PdfEnv Page) (docWriteOk mdWriteOk : String → Bool)
    (pdf_path : String) (page_ranges : List (Int × Int × String)) (offset : Int) :
    ExtractResult Page :=
  if env.present = false then
    .err (.sourceNotFound pdf_path) [] []
  else
    let pdf_dir := pdf_dir_of pdf_path
    match env.parse with
    | none => .err .sourceReadError [] [.errorProcessing]
    | some pages =>
      let total_pages := pages.length
      let r := processRanges pages total_pages offset pdf_dir docWriteOk mdWriteOk page_ranges
      match r.aborted with
      | none => .ok r.writes (.totalPagesMsg total_pages :: r.log)
      | some p =>
        .err (.writeError p) r.writes
          (.totalPagesMsg total_pages :: r.log ++ [.errorProcessing])

/-! ### Filesystem model for overwrite semantics -/

/-- A filesystem as a map from paths to file contents. -/
abbrev FS (Page : Type) := String → Option (FileContent Page)

/-- Writing a file: creates or silently overwrites (both `open(..., "wb")`
and `open(..., "w")` truncate). -/
def writeFile (fs : FS Page) (path : String) (c : FileContent Page) : FS Page :=
  fun p => if p = path then some c else fs p

/-- Applying a run's writes to a filesystem, in order. -/
def applyWrites (fs : FS Page) (ws : List (String × FileContent Page)) : FS Page :=
  ws.foldl (fun acc w => writeFile acc w.1 w.2) fs

/-- The last write a list performs at a path, if any. -/
def lastWrite : List (String × FileContent Page) → String → Option (FileContent Page)
  | [], _ => none
  | w :: t, p =>
    match lastWrite t p with
    | some c => some c
    | none => if p = w.1 then some w.2 else none

/-! ### Definitions following the specification's words (for comparison) -/

/-- The extension of a path's final component, from its last `.` (empty when
it has none): the "source document's own file extension" of the spec. -/
def pathExtension (path : String) : String :=
  let base := (path.data.reverse.takeWhile (fun c => c ≠ '/')).reverse
  let revTail := base.reverse.takeWhile (fun c => c ≠ '.')
  if revTail.length = base.length then "" else String.mk ('.' :: revTail.reverse)

/-- Document filename as the specification sentence for C4 words it:
"outputName with the source document's own file extension appended only if
outputName does not already end with that extension". -/
def specDocFilename (sourceExt base : String) : String :=
  if endswith base sourceExt then base else base ++ sourceExt

/-! ### Helper lemmas -/

theorem processRanges_aborted_none (pages : List Page) (total_pages : Nat) (offset : Int)
    (pdf_dir : String) (mdWriteOk : String → Bool) (l : List (Int × Int × String)) :
    (processRanges pages total_pages offset pdf_dir (fun _ => true) mdWriteOk l).aborted
      = none := by
  induction l with
  | nil => rfl
  | cons hd t ih =>
    obtain ⟨s, e, n⟩ := hd
    simp only [processRanges]
    split
    · exact ih
    · split
      · exact ih
      · split
        · exact ih
        · split
          · split <;> exact ih
          · exact absurd trivial (by assumption)

theorem processRanges_append (pages : List Page) (total_pages : Nat) (offset : Int)
    (pdf_dir : String) (docWriteOk mdWriteOk : String → Bool)
    (pre post : List (Int × Int × String))
    (h : (processRanges pages total_pages offset pdf_dir docWriteOk mdWriteOk pre).aborted
          = none) :
    processRanges pages total_pages offset pdf_dir docWriteOk mdWriteOk (pre ++ post) =
      ⟨(processRanges pages total_pages offset pdf_dir docWriteOk mdWriteOk pre).writes
         ++ (processRanges pages total_pages offset pdf_dir docWriteOk mdWriteOk post).writes,
       (processRanges pages total_pages offset pdf_dir docWriteOk mdWriteOk pre).log
         ++ (processRanges pages total_pages offset pdf_dir docWriteOk mdWriteOk post).log,
       (processRanges pages total_pages offset pdf_dir docWriteOk mdWriteOk post).aborted⟩ := by
  induction pre with
  | nil => rfl
  | cons hd t ih =>
    obtain ⟨s, e, n⟩ := hd
    by_cases h1 : s + offset < 1 ∨ e + offset < 1
    · simp only [processRanges, List.cons_append, List.append_eq, if_pos h1] at h ⊢
      rw [ih h]
    · by_cases h2 : s + offset > (total_pages : Int) ∨ e + offset > (total_pages : Int)
      · simp only [processRanges, List.cons_append, List.append_eq, if_neg h1, if_pos h2] at h ⊢
        rw [ih h]
      · by_cases h3 : s + offset > e + offset
        · simp only [processRanges, List.cons_append, List.append_eq, if_neg h1, if_neg h2, if_pos h3] at h ⊢
          rw [ih h]
        · by_cases h4 : docWriteOk (joinPath pdf_dir (pdf_output_filename n)) = true
          · by_cases h5 : mdWriteOk (joinPath pdf_dir (md_output_filename n)) = true
            · simp only [processRanges, List.cons_append, List.append_eq, if_neg h1, if_neg h2,
                if_neg h3, if_pos h4, if_pos h5] at h ⊢
              rw [ih h]
            · simp only [processRanges, List.cons_append, List.append_eq, if_neg h1, if_neg h2,
                if_neg h3, if_pos h4, if_neg h5] at h ⊢
              rw [ih h]
          · simp only [processRanges, List.cons_append, List.append_eq, if_neg h1, if_neg h2,
              if_neg h3, if_neg h4] at h
            simp at h

theorem filterMap_getElem_range' (pages : List Page) :
    ∀ (n a : Nat), a + n ≤ pages.length →
      (List.range' a n).filterMap (fun i => pages.get? i) = (pages.drop a).take n := by
  intro n
  induction n with
  | zero => intro a _; rfl
  | succ m ih =>
    intro a ha
    have haa : a < pages.length := by omega
    rw [List.range'_succ, List.filterMap_cons]
    have hg : pages.get? a = some pages[a] := by
      rw [List.get?_eq_getElem?, List.getElem?_eq_getElem haa]
    rw [hg, ih (a + 1) (by omega), List.drop_eq_getElem_cons haa, List.take_succ_cons]

theorem extractedPages_eq (pages : List Page) (actual_start actual_end : Int)
    (h1 : 1 ≤ actual_start) (h0 : actual_start ≤ actual_end)
    (h2 : actual_end ≤ (pages.length : Int)) :
    extractedPages pages actual_start actual_end =
      (pages.drop (actual_start - 1).toNat).take (actual_end + 1 - actual_start).toNat := by
  unfold extractedPages
  exact filterMap_getElem_range' pages _ _ (by omega)

theorem extractedPages_length (pages : List Page) (actual_start actual_end : Int)
    (h1 : 1 ≤ actual_start) (h2 : actual_start ≤ actual_end)
    (h3 : actual_end ≤ (pages.length : Int)) :
    (extractedPages pages actual_start actual_end).length
      = (actual_end + 1 - actual_start).toNat := by
  rw [extractedPages_eq pages actual_start actual_end h1 h2 h3]
  rw [List.length_take, List.length_drop]
  omega

theorem extractedPages_getElem (pages : List Page) (actual_start actual_end : Int)
    (h1 : 1 ≤ actual_start) (h3 : actual_end ≤ (pages.length : Int))
    (i : Nat) (hi : i < (actual_end + 1 - actual_start).toNat) :
    (extractedPages pages actual_start actual_end)[i]?
      = pages[(actual_start - 1).toNat + i]? := by
  have h0 : actual_start ≤ actual_end := by omega
  rw [extractedPages_eq pages actual_start actual_end h1 h0 h3]
  rw [List.getElem?_take]
  simp only [hi, if_pos]
  exact List.getElem?_drop ..

theorem applyWrites_eq (ws : List (String × FileContent Page)) :
    ∀ (fs : FS Page) (p : String),
      applyWrites fs ws p =
        match lastWrite ws p with
        | some c => some c
        | none => fs p := by
  induction ws with
  | nil => intro fs p; rfl
  | cons w t ih =>
    intro fs p
    show applyWrites (writeFile fs w.1 w.2) t p = _
    rw [ih]
    simp only [lastWrite]
    cases lastWrite t p
    · by_cases hp : p = w.1 <;> simp [writeFile, hp]
    · rfl

theorem applyWrites_applyWrites (fs : FS Page) (ws : List (String × FileContent Page)) :
    applyWrites (applyWrites fs ws) ws = applyWrites fs ws := by
  funext p
  rw [applyWrites_eq, applyWrites_eq]
  cases lastWrite ws p <;> simp

theorem extract_pages_run_ok (pages : List Page) (docWriteOk mdWriteOk : String → Bool)
    (pdf_path : String) (page_ranges : List (Int × Int × String)) (offset : Int)
    (h : (processRanges pages pages.length offset (pdf_dir_of pdf_path)
            docWriteOk mdWriteOk page_ranges).aborted = none) :
    extract_pages ⟨true, some pages⟩ docWriteOk mdWriteOk pdf_path page_ranges offset =
      .ok (processRanges pages pages.length offset (pdf_dir_of pdf_path)
            docWriteOk mdWriteOk page_ranges).writes
        (.totalPagesMsg pages.length ::
          (processRanges pages pages.length offset (pdf_dir_of pdf_path)
            docWriteOk mdWriteOk page_ranges).log) := by
  simp only [extract_pages]
  rw [if_neg (by simp)]
  simp only [h]

theorem extract_pages_run_abort (pages : List Page) (docWriteOk mdWriteOk : String → Bool)
    (pdf_path : String) (page_ranges : List (Int × Int × String)) (offset : Int) (p : String)
    (h : (processRanges pages pages.length offset (pdf_dir_of pdf_path)
            docWriteOk mdWriteOk page_ranges).aborted = some p) :
    extract_pages ⟨true, some pages⟩ docWriteOk mdWriteOk pdf_path page_ranges offset =
      .err (.writeError p)
        (processRanges pages pages.length offset (pdf_dir_of pdf_path)
          docWriteOk mdWriteOk page_ranges).writes
        (.totalPagesMsg pages.length ::
          (processRanges pages pages.length offset (pdf_dir_of pdf_path)
            docWriteOk mdWriteOk page_ranges).log ++ [.errorProcessing]) := by
  simp only [extract_pages]
  rw [if_neg (by simp)]
  simp only [h]

theorem processRanges_cons_invalid (pages : List Page) (total_pages : Nat) (offset : Int)
    (pdf_dir : String) (docWriteOk mdWriteOk : String → Bool)
    (s e : Int) (name : String) (rest : List (Int × Int × String))
    (hbad : s + offset < 1 ∨ e + offset < 1 ∨ s + offset > (total_pages : Int)
      ∨ e + offset > (total_pages : Int) ∨ s + offset > e + offset) :
    ∃ w : Event, w.isWarning = true ∧
      processRanges pages total_pages offset pdf_dir docWriteOk mdWriteOk
          ((s, e, name) :: rest) =
        ⟨(processRanges pages total_pages offset pdf_dir docWriteOk mdWriteOk rest).writes,
         w :: (processRanges pages total_pages offset pdf_dir docWriteOk mdWriteOk rest).log,
         (processRanges pages total_pages offset pdf_dir docWriteOk mdWriteOk rest).aborted⟩ := by
  by_cases h1 : s + offset < 1 ∨ e + offset < 1
  · exact ⟨.warnNonPositive s e offset, rfl, by simp only [processRanges, if_pos h1]⟩
  · by_cases h2 : s + offset > (total_pages : Int) ∨ e + offset > (total_pages : Int)
    · exact ⟨.warnExceedsTotal s e offset total_pages, rfl,
        by simp only [processRanges, if_neg h1, if_pos h2]⟩
    · by_cases h3 : s + offset > e + offset
      · exact ⟨.warnInverted s e offset, rfl,
          by simp only [processRanges, if_neg h1, if_neg h2, if_pos h3]⟩
      · exact absurd hbad (by omega)

theorem processRanges_cons_valid (pages : List Page) (total_pages : Nat) (offset : Int)
    (pdf_dir : String) (docWriteOk mdWriteOk : String → Bool)
    (s e : Int) (name : String) (rest : List (Int × Int × String))
    (h1 : 1 ≤ s + offset) (h2 : s + offset ≤ e + offset)
    (h3 : e + offset ≤ (total_pages : Int))
    (hdoc : docWriteOk (joinPath pdf_dir (pdf_output_filename name)) = true)
    (hmd : mdWriteOk (joinPath pdf_dir (md_output_filename name)) = true) :
    processRanges pages total_pages offset pdf_dir docWriteOk mdWriteOk
        ((s, e, name) :: rest) =
      ⟨(joinPath pdf_dir (pdf_output_filename name),
          .pdf (extractedPages pages (s + offset) (e + offset))) ::
        (joinPath pdf_dir (md_output_filename name), .text "") ::
        (processRanges pages total_pages offset pdf_dir docWriteOk mdWriteOk rest).writes,
       .savedPdf s e (joinPath pdf_dir (pdf_output_filename name)) ::
        .createdMd (joinPath pdf_dir (md_output_filename name)) ::
        (processRanges pages total_pages offset pdf_dir docWriteOk mdWriteOk rest).log,
       (processRanges pages total_pages offset pdf_dir docWriteOk mdWriteOk rest).aborted⟩ := by
  simp only [processRanges, if_neg (show ¬(s + offset < 1 ∨ e + offset < 1) by omega),
    if_neg (show ¬(s + offset > (total_pages : Int) ∨ e + offset > (total_pages : Int)) by omega),
    if_neg (show ¬(s + offset > e + offset) by omega), if_pos hdoc, if_pos hmd]

theorem processRanges_cons_mdFail (pages : List Page) (total_pages : Nat) (offset : Int)
    (pdf_dir : String) (docWriteOk mdWriteOk : String → Bool)
    (s e : Int) (name : String) (rest : List (Int × Int × String))
    (h1 : 1 ≤ s + offset) (h2 : s + offset ≤ e + offset)
    (h3 : e + offset ≤ (total_pages : Int))
    (hdoc : docWriteOk (joinPath pdf_dir (pdf_output_filename name)) = true)
    (hmd : mdWriteOk (joinPath pdf_dir (md_output_filename name)) = false) :
    processRanges pages total_pages offset pdf_dir docWriteOk mdWriteOk
        ((s, e, name) :: rest) =
      ⟨(joinPath pdf_dir (pdf_output_filename name),
          .pdf (extractedPages pages (s + offset) (e + offset))) ::
        (processRanges pages total_pages offset pdf_dir docWriteOk mdWriteOk rest).writes,
       .savedPdf s e (joinPath pdf_dir (pdf_output_filename name)) ::
        .errorMd (joinPath pdf_dir (md_output_filename name)) ::
        (processRanges pages total_pages offset pdf_dir docWriteOk mdWriteOk rest).log,
       (processRanges pages total_pages offset pdf_dir docWriteOk mdWriteOk rest).aborted⟩ := by
  simp only [processRanges, if_neg (show ¬(s + offset < 1 ∨ e + offset < 1) by omega),
    if_neg (show ¬(s + offset > (total_pages : Int) ∨ e + offset > (total_pages : Int)) by omega),
    if_neg (show ¬(s + offset > e + offset) by omega), if_pos hdoc,
    if_neg (show ¬(mdWriteOk (joinPath pdf_dir (md_output_filename name)) = true) by
      simp [hmd])]

theorem processRanges_cons_docFail (pages : List Page) (total_pages : Nat) (offset : Int)
    (pdf_dir : String) (docWriteOk mdWriteOk : String → Bool)
    (s e : Int) (name : String) (rest : List (Int × Int × String))
    (h1 : 1 ≤ s + offset) (h2 : s + offset ≤ e + offset)
    (h3 : e + offset ≤ (total_pages : Int))
    (hdoc : docWriteOk (joinPath pdf_dir (pdf_output_filename name)) = false) :
    processRanges pages total_pages offset pdf_dir docWriteOk mdWriteOk
        ((s, e, name) :: rest) =
      ⟨[], [], some (joinPath pdf_dir (pdf_output_filename name))⟩ := by
  simp only [processRanges, if_neg (show ¬(s + offset < 1 ∨ e + offset < 1) by omega),
    if_neg (show ¬(s + offset > (total_pages : Int) ∨ e + offset > (total_pages : Int)) by omega),
    if_neg (show ¬(s + offset > e + offset) by omega),
    if_neg (show ¬(docWriteOk (joinPath pdf_dir (pdf_output_filename name)) = true) by
      simp [hdoc])]

theorem endswith_append_ne (base : String) (suff tail : String)
    (hlen : suff.data.length = tail.data.length) (hne : suff.data ≠ tail.data) :
    endswith (base ++ tail) suff = false := by
  unfold endswith
  rw [String.data_append]
  by_contra hc
  rw [Bool.not_eq_false, List.isSuffixOf_iff_suffix] at hc
  obtain ⟨t, ht⟩ := hc
  exact hne ((List.append_inj' ht hlen).2)

theorem writesOf_parsed (pages : List Page) (docWriteOk mdWriteOk : String → Bool)
    (pdf_path : String) (l : List (Int × Int × String)) (offset : Int) :
    writesOf (extract_pages ⟨true, some pages⟩ docWriteOk mdWriteOk pdf_path l offset)
      = (processRanges pages pages.length offset (pdf_dir_of pdf_path)
          docWriteOk mdWriteOk l).writes := by
  cases h : (processRanges pages pages.length offset (pdf_dir_of pdf_path)
      docWriteOk mdWriteOk l).aborted with
  | none => rw [extract_pages_run_ok pages docWriteOk mdWriteOk pdf_path l offset h]; rfl
  | some p => rw [extract_pages_run_abort pages docWriteOk mdWriteOk pdf_path l offset p h]; rfl

theorem errOf_parsed (pages : List Page) (docWriteOk mdWriteOk : String → Bool)
    (pdf_path : String) (l : List (Int × Int × String)) (offset : Int) :
    errOf (extract_pages ⟨true, some pages⟩ docWriteOk mdWriteOk pdf_path l offset)
      = Option.map ExtractError.writeError
          (processRanges pages pages.length offset (pdf_dir_of pdf_path)
            docWriteOk mdWriteOk l).aborted := by
  cases h : (processRanges pages pages.length offset (pdf_dir_of pdf_path)
      docWriteOk mdWriteOk l).aborted with
  | none => rw [extract_pages_run_ok pages docWriteOk mdWriteOk pdf_path l offset h]; rfl
  | some p => rw [extract_pages_run_abort pages docWriteOk mdWriteOk pdf_path l offset p h]; rfl

theorem logOf_parsed_mem (pages : List Page) (docWriteOk mdWriteOk : String → Bool)
    (pdf_path : String) (l : List (Int × Int × String)) (offset : Int) (w : Event)
    (hw : w ∈ (processRanges pages pages.length offset (pdf_dir_of pdf_path)
        docWriteOk mdWriteOk l).log) :
    w ∈ logOf (extract_pages ⟨true, some pages⟩ docWriteOk mdWriteOk pdf_path l offset) := by
  cases h : (processRanges pages pages.length offset (pdf_dir_of pdf_path)
      docWriteOk mdWriteOk l).aborted with
  | none =>
    rw [extract_pages_run_ok pages docWriteOk mdWriteOk pdf_path l offset h]
    exact List.mem_cons_of_mem _ hw
  | some p =>
    rw [extract_pages_run_abort pages docWriteOk mdWriteOk pdf_path l offset p h]
    exact List.mem_cons_of_mem _ (List.mem_append_left _ hw)

theorem processRanges_text_empty (pages : List Page) (total_pages : Nat) (offset : Int)
    (pdf_dir : String) (docWriteOk mdWriteOk : String → Bool) :
    ∀ (l : List (Int × Int × String)) (p str : String),
      (p, FileContent.text str)
          ∈ (processRanges pages total_pages offset pdf_dir docWriteOk mdWriteOk l).writes →
        str = "" := by
  intro l
  induction l with
  | nil => intro p str h; simp [processRanges] at h
  | cons hd t ih =>
    obtain ⟨s, e, n⟩ := hd
    intro p str h
    simp only [processRanges] at h
    split at h
    · exact ih p str h
    · split at h
      · exact ih p str h
      · split at h
        · exact ih p str h
        · split at h
          · split at h
            · simp only [List.mem_cons] at h
              rcases h with h | h | h
              · simp at h
              · simp at h; exact h.2
              · exact ih p str h
            · simp only [List.mem_cons] at h
              rcases h with h | h
              · simp at h
              · exact ih p str h
          · simp at h

theorem extract_text_empty (env : PdfEnv Page) (docWriteOk mdWriteOk : String → Bool)
    (pdf_path : String) (page_ranges : List (Int × Int × String)) (offset : Int) :
    ∀ p str, (p, FileContent.text str)
        ∈ writesOf (extract_pages env docWriteOk mdWriteOk pdf_path page_ranges offset) →
      str = "" := by
  obtain ⟨pres, parse⟩ := env
  cases pres with
  | false => intro p str h; simp [extract_pages, writesOf] at h
  | true =>
    cases parse with
    | none => intro p str h; simp [extract_pages, writesOf] at h
    | some pages =>
      rw [writesOf_parsed]
      exact processRanges_text_empty pages pages.length offset (pdf_dir_of pdf_path)
        docWriteOk mdWriteOk page_ranges

/-! ### The claims -/

/-- C3: for every call where the source path does not reference an existing
file, `extract_pages` raises the source-not-found error before any parsing
attempt (the outcome is the same whatever parsing would return) and creates
zero output files — no document files and no companion files for any
descriptor. -/
theorem claim_C3 (Page : Type) (parse : Option (List Page))
    (docWriteOk mdWriteOk : String → Bool) (pdf_path : String)
    (page_ranges : List (Int × Int × String)) (offset : Int) :
    extract_pages ⟨false, parse⟩ docWriteOk mdWriteOk pdf_path page_ranges offset
      = .err (.sourceNotFound pdf_path) [] [] := by
  rfl

/-- C7: if the source file exists but cannot be parsed as a valid document,
`extract_pages` raises the source-read error to the caller, aborts the whole
operation, and attempts no outputs: no descriptor produces any file. -/
theorem claim_C7 (Page : Type) (docWriteOk mdWriteOk : String → Bool) (pdf_path : String)
    (page_ranges : List (Int × Int × String)) (offset : Int) :
    @extract_pages Page ⟨true, none⟩ docWriteOk mdWriteOk pdf_path page_ranges offset
      = .err .sourceReadError [] [.errorProcessing] := by
  rfl

/-- C9: the check whether the output name already ends with `".pdf"` is
case-sensitive: any output name ending in the non-lowercase variant `".PDF"`
still gets the literal `".pdf"` appended, e.g. `"Name.PDF"` yields the
document filename `"Name.PDF.pdf"` (shown both on the filename derivation
and on a full run). -/
theorem claim_C9 (base : String) :
    pdf_output_filename (base ++ ".PDF") = base ++ ".PDF" ++ ".pdf"
    ∧ pdf_output_filename "Name.PDF" = "Name.PDF.pdf"
    ∧ writesOf (@extract_pages Unit ⟨true, some [()]⟩ (fun _ => true) (fun _ => true)
        "doc.pdf" [(1, 1, "Name.PDF")] 0)
      = [("./Name.PDF.pdf", .pdf [()]), ("./Name.PDF.md", .text "")] := by
  refine ⟨?_, by decide, by decide⟩
  unfold pdf_output_filename
  rw [endswith_append_ne base ".pdf" ".PDF" (by decide) (by decide)]
  simp

/-- C4 as stated is false: the code appends the literal `".pdf"`, not the
source document's own file extension. Against the source path `"doc.PDF"`
(own extension `".PDF"`), a descriptor named `"Chapter"` produces the
document file `Chapter.pdf`, while the claim's rule would produce
`Chapter.PDF`, which is not among the files written. -/
theorem claim_C4_counterexample :
    writesOf (@extract_pages Unit ⟨true, some [()]⟩ (fun _ => true) (fun _ => true)
        "doc.PDF" [(1, 1, "Chapter")] 0)
      = [("./Chapter.pdf", .pdf [()]), ("./Chapter.md", .text "")]
    ∧ pathExtension "doc.PDF" = ".PDF"
    ∧ specDocFilename (pathExtension "doc.PDF") "Chapter" = "Chapter.PDF"
    ∧ "./" ++ specDocFilename (pathExtension "doc.PDF") "Chapter"
        ∉ (writesOf (@extract_pages Unit ⟨true, some [()]⟩ (fun _ => true)
            (fun _ => true) "doc.PDF" [(1, 1, "Chapter")] 0)).map Prod.fst := by
  decide

/-- C4 amended: for every processed descriptor, the document filename is the
output name with the literal `".pdf"` extension appended only if the output
name does not already end with `".pdf"` (the source path's own extension
plays no role), and the companion filename is exactly the output name plus
`".md"`; in particular `"Chapter 1"` yields `"Chapter 1.pdf"` and
`"Chapter 1.md"`, and `"Chapter 1.pdf"` yields `"Chapter 1.pdf"` and
`"Chapter 1.pdf.md"`. -/
theorem claim_C4_amended (Page : Type) (pages : List Page) (pdf_path : String)
    (s e : Int) (name : String) (offset : Int) (rest : List (Int × Int × String))
    (h1 : 1 ≤ s + offset) (h2 : s + offset ≤ e + offset)
    (h3 : e + offset ≤ (pages.length : Int)) :
    (writesOf (extract_pages ⟨true, some pages⟩ (fun _ => true) (fun _ => true) pdf_path
        ((s, e, name) :: rest) offset)).map Prod.fst
      = joinPath (pdf_dir_of pdf_path) (pdf_output_filename name)
        :: joinPath (pdf_dir_of pdf_path) (md_output_filename name)
        :: (writesOf (extract_pages ⟨true, some pages⟩ (fun _ => true) (fun _ => true)
            pdf_path rest offset)).map Prod.fst
    ∧ pdf_output_filename "Chapter 1" = "Chapter 1.pdf"
    ∧ md_output_filename "Chapter 1" = "Chapter 1.md"
    ∧ pdf_output_filename "Chapter 1.pdf" = "Chapter 1.pdf"
    ∧ md_output_filename "Chapter 1.pdf" = "Chapter 1.pdf.md" := by
  refine ⟨?_, by decide, by decide, by decide, by decide⟩
  rw [writesOf_parsed, writesOf_parsed,
    processRanges_cons_valid pages pages.length offset (pdf_dir_of pdf_path)
      (fun _ => true) (fun _ => true) s e name rest h1 h2 h3 rfl rfl]
  simp

/-- C1: with all writes succeeding, for every descriptor whose effective
range is valid (`1 ≤ start+offset ≤ end+offset ≤ total_pages`) — wherever it
occurs in the descriptor list — the run writes for it a document whose page
count is `end - start + 1` and whose `i`-th page is the source's page at
1-based position `start+offset+i`, i.e. the source pages from position
`start+offset` through `end+offset` copied in ascending source order,
followed by the empty companion file. -/
theorem claim_C1 (Page : Type) (pages : List Page) (pdf_path : String)
    (pre post : List (Int × Int × String)) (s e : Int) (name : String) (offset : Int)
    (h1 : 1 ≤ s + offset) (h2 : s + offset ≤ e + offset)
    (h3 : e + offset ≤ (pages.length : Int)) :
    writesOf (extract_pages ⟨true, some pages⟩ (fun _ => true) (fun _ => true) pdf_path
        (pre ++ (s, e, name) :: post) offset)
      = writesOf (extract_pages ⟨true, some pages⟩ (fun _ => true) (fun _ => true) pdf_path
          pre offset)
        ++ (joinPath (pdf_dir_of pdf_path) (pdf_output_filename name),
             .pdf (extractedPages pages (s + offset) (e + offset)))
        :: (joinPath (pdf_dir_of pdf_path) (md_output_filename name), .text "")
        :: writesOf (extract_pages ⟨true, some pages⟩ (fun _ => true) (fun _ => true) pdf_path
            post offset)
    ∧ (extractedPages pages (s + offset) (e + offset)).length = (e - s + 1).toNat
    ∧ ∀ i : Nat, i < (extractedPages pages (s + offset) (e + offset)).length →
        (extractedPages pages (s + offset) (e + offset))[i]?
          = pages[(s + offset - 1).toNat + i]? := by
  have hlen : (extractedPages pages (s + offset) (e + offset)).length
      = (e + offset + 1 - (s + offset)).toNat :=
    extractedPages_length pages (s + offset) (e + offset) h1 h2 h3
  refine ⟨?_, ?_, ?_⟩
  · rw [writesOf_parsed, writesOf_parsed, writesOf_parsed,
      processRanges_append pages pages.length offset (pdf_dir_of pdf_path)
        (fun _ => true) (fun _ => true) pre ((s, e, name) :: post)
        (processRanges_aborted_none pages pages.length offset (pdf_dir_of pdf_path)
          (fun _ => true) pre),
      processRanges_cons_valid pages pages.length offset (pdf_dir_of pdf_path)
        (fun _ => true) (fun _ => true) s e name post h1 h2 h3 rfl rfl]
  · rw [hlen]
    congr 1
    omega
  · intro i hi
    rw [hlen] at hi
    exact extractedPages_getElem pages (s + offset) (e + offset) h1 h3 i hi

/-- C1 witness: a concrete valid descriptor `(2, 3, "A")` on a 4-page source
writes `A.pdf` holding source pages 2-3 and the empty `A.md`. -/
theorem claim_C1_witness :
    writesOf (extract_pages ⟨true, some ["p1", "p2", "p3", "p4"]⟩ (fun _ => true)
        (fun _ => true) "doc.pdf" ([] ++ (2, 3, "A") :: []) 0)
      = writesOf (extract_pages ⟨true, some ["p1", "p2", "p3", "p4"]⟩ (fun _ => true)
          (fun _ => true) "doc.pdf" [] 0)
        ++ (joinPath (pdf_dir_of "doc.pdf") (pdf_output_filename "A"),
             .pdf (extractedPages ["p1", "p2", "p3", "p4"] (2 + 0) (3 + 0)))
        :: (joinPath (pdf_dir_of "doc.pdf") (md_output_filename "A"), .text "")
        :: writesOf (extract_pages ⟨true, some ["p1", "p2", "p3", "p4"]⟩ (fun _ => true)
            (fun _ => true) "doc.pdf" [] 0)
    ∧ (extractedPages ["p1", "p2", "p3", "p4"] (2 + 0) (3 + 0)).length = ((3 : Int) - 2 + 1).toNat
    ∧ ∀ i : Nat, i < (extractedPages ["p1", "p2", "p3", "p4"] (2 + 0) (3 + 0)).length →
        (extractedPages ["p1", "p2", "p3", "p4"] (2 + 0) (3 + 0))[i]?
          = ["p1", "p2", "p3", "p4"][((2 : Int) + 0 - 1).toNat + i]? :=
  claim_C1 String ["p1", "p2", "p3", "p4"] "doc.pdf" [] [] 2 3 "A" 0
    (by decide) (by decide) (by decide)

/-- C2: for every descriptor violating the bounds (negative-or-zero
effective endpoint, endpoint beyond the total page count, or inverted
range) — wherever it occurs, provided no earlier descriptor aborted the
run — the run writes no document file and no companion file for it (the
writes are exactly those of the run without it), raises nothing it would not
raise anyway, and logs a warning, continuing with the next descriptor. -/
theorem claim_C2 (Page : Type) (pages : List Page) (pdf_path : String)
    (pre post : List (Int × Int × String)) (s e : Int) (name : String) (offset : Int)
    (docWriteOk mdWriteOk : String → Bool)
    (hpre : (processRanges pages pages.length offset (pdf_dir_of pdf_path)
        docWriteOk mdWriteOk pre).aborted = none)
    (hbad : s + offset < 1 ∨ e + offset < 1 ∨ s + offset > (pages.length : Int)
      ∨ e + offset > (pages.length : Int) ∨ s + offset > e + offset) :
    writesOf (extract_pages ⟨true, some pages⟩ docWriteOk mdWriteOk pdf_path
        (pre ++ (s, e, name) :: post) offset)
      = writesOf (extract_pages ⟨true, some pages⟩ docWriteOk mdWriteOk pdf_path
          (pre ++ post) offset)
    ∧ errOf (extract_pages ⟨true, some pages⟩ docWriteOk mdWriteOk pdf_path
        (pre ++ (s, e, name) :: post) offset)
      = errOf (extract_pages ⟨true, some pages⟩ docWriteOk mdWriteOk pdf_path
          (pre ++ post) offset)
    ∧ ∃ w : Event, w.isWarning = true
        ∧ w ∈ logOf (extract_pages ⟨true, some pages⟩ docWriteOk mdWriteOk pdf_path
            (pre ++ (s, e, name) :: post) offset) := by
  obtain ⟨w, hwarn, hcons⟩ := processRanges_cons_invalid pages pages.length offset
    (pdf_dir_of pdf_path) docWriteOk mdWriteOk s e name post hbad
  have happ := processRanges_append pages pages.length offset (pdf_dir_of pdf_path)
    docWriteOk mdWriteOk pre ((s, e, name) :: post) hpre
  have happ' := processRanges_append pages pages.length offset (pdf_dir_of pdf_path)
    docWriteOk mdWriteOk pre post hpre
  refine ⟨?_, ?_, ?_⟩
  · rw [writesOf_parsed, writesOf_parsed, happ, happ', hcons]
  · rw [errOf_parsed, errOf_parsed, happ, happ', hcons]
  · refine ⟨w, hwarn, logOf_parsed_mem pages docWriteOk mdWriteOk pdf_path _ offset w ?_⟩
    rw [happ, hcons]
    exact List.mem_append_right _ (List.mem_cons_self w _)

/-- C2 witness: the descriptor `(3, 2, "B")` (inverted range) on a 2-page
source is skipped with a warning while the rest of the run is unchanged. -/
theorem claim_C2_witness :
    writesOf (extract_pages ⟨true, some ["p1", "p2"]⟩ (fun _ => true) (fun _ => true)
        "doc.pdf" ([] ++ (3, 2, "B") :: []) 0)
      = writesOf (extract_pages ⟨true, some ["p1", "p2"]⟩ (fun _ => true) (fun _ => true)
          "doc.pdf" ([] ++ []) 0)
    ∧ errOf (extract_pages ⟨true, some ["p1", "p2"]⟩ (fun _ => true) (fun _ => true)
        "doc.pdf" ([] ++ (3, 2, "B") :: []) 0)
      = errOf (extract_pages ⟨true, some ["p1", "p2"]⟩ (fun _ => true) (fun _ => true)
          "doc.pdf" ([] ++ []) 0)
    ∧ ∃ w : Event, w.isWarning = true
        ∧ w ∈ logOf (extract_pages ⟨true, some ["p1", "p2"]⟩ (fun _ => true) (fun _ => true)
            "doc.pdf" ([] ++ (3, 2, "B") :: []) 0) :=
  claim_C2 String ["p1", "p2"] "doc.pdf" [] [] 3 2 "B" 0 (fun _ => true) (fun _ => true)
    (by decide) (by decide)

/-- C6: a run's outcome is a deterministic function of its arguments, so the
second of two identical runs performs exactly the same writes; applying
those writes a second time leaves the filesystem exactly as after the first
application (overwrite, not accumulation), and every text (companion) file
the run writes has empty content — so after the second run the document
files are byte-identical and the companion files are still empty. -/
theorem claim_C6 (Page : Type) (env : PdfEnv Page) (docWriteOk mdWriteOk : String → Bool)
    (pdf_path : String) (page_ranges : List (Int × Int × String)) (offset : Int)
    (fs : FS Page) :
    applyWrites
        (applyWrites fs
          (writesOf (extract_pages env docWriteOk mdWriteOk pdf_path page_ranges offset)))
        (writesOf (extract_pages env docWriteOk mdWriteOk pdf_path page_ranges offset))
      = applyWrites fs
          (writesOf (extract_pages env docWriteOk mdWriteOk pdf_path page_ranges offset))
    ∧ ∀ p str, (p, FileContent.text str)
        ∈ writesOf (extract_pages env docWriteOk mdWriteOk pdf_path page_ranges offset) →
      str = "" :=
  ⟨applyWrites_applyWrites fs _,
   extract_text_empty env docWriteOk mdWriteOk pdf_path page_ranges offset⟩

/-- C6 witness: on a concrete 2-page run, replaying the run's writes over
the filesystem they produced changes nothing. -/
theorem claim_C6_witness :
    applyWrites
        (applyWrites (fun _ => none)
          (writesOf (@extract_pages String ⟨true, some ["p1", "p2"]⟩ (fun _ => true)
            (fun _ => true) "doc.pdf" [(1, 2, "A")] 0)))
        (writesOf (@extract_pages String ⟨true, some ["p1", "p2"]⟩ (fun _ => true)
          (fun _ => true) "doc.pdf" [(1, 2, "A")] 0))
      = applyWrites (fun _ => none)
          (writesOf (@extract_pages String ⟨true, some ["p1", "p2"]⟩ (fun _ => true)
            (fun _ => true) "doc.pdf" [(1, 2, "A")] 0)) :=
  (claim_C6 String ⟨true, some ["p1", "p2"]⟩ (fun _ => true) (fun _ => true) "doc.pdf"
    [(1, 2, "A")] 0 (fun _ => none)).1

/-- C8: for every descriptor whose companion-file write fails — wherever it
occurs, provided no earlier descriptor aborted the run — the failure is
logged, nothing is raised because of it (the run raises exactly what the
remaining descriptors raise), the descriptor's already-written document file
remains among the writes, and the following descriptors are still
processed. -/
theorem claim_C8 (Page : Type) (pages : List Page) (pdf_path : String)
    (pre post : List (Int × Int × String)) (s e : Int) (name : String) (offset : Int)
    (docWriteOk mdWriteOk : String → Bool)
    (hpre : (processRanges pages pages.length offset (pdf_dir_of pdf_path)
        docWriteOk mdWriteOk pre).aborted = none)
    (h1 : 1 ≤ s + offset) (h2 : s + offset ≤ e + offset)
    (h3 : e + offset ≤ (pages.length : Int))
    (hdoc : docWriteOk (joinPath (pdf_dir_of pdf_path) (pdf_output_filename name)) = true)
    (hmd : mdWriteOk (joinPath (pdf_dir_of pdf_path) (md_output_filename name)) = false) :
    writesOf (extract_pages ⟨true, some pages⟩ docWriteOk mdWriteOk pdf_path
        (pre ++ (s, e, name) :: post) offset)
      = writesOf (extract_pages ⟨true, some pages⟩ docWriteOk mdWriteOk pdf_path pre offset)
        ++ (joinPath (pdf_dir_of pdf_path) (pdf_output_filename name),
             .pdf (extractedPages pages (s + offset) (e + offset)))
        :: writesOf (extract_pages ⟨true, some pages⟩ docWriteOk mdWriteOk pdf_path
            post offset)
    ∧ Event.errorMd (joinPath (pdf_dir_of pdf_path) (md_output_filename name))
        ∈ logOf (extract_pages ⟨true, some pages⟩ docWriteOk mdWriteOk pdf_path
            (pre ++ (s, e, name) :: post) offset)
    ∧ errOf (extract_pages ⟨true, some pages⟩ docWriteOk mdWriteOk pdf_path
        (pre ++ (s, e, name) :: post) offset)
      = errOf (extract_pages ⟨true, some pages⟩ docWriteOk mdWriteOk pdf_path post offset) := by
  have hcons := processRanges_cons_mdFail pages pages.length offset (pdf_dir_of pdf_path)
    docWriteOk mdWriteOk s e name post h1 h2 h3 hdoc hmd
  have happ := processRanges_append pages pages.length offset (pdf_dir_of pdf_path)
    docWriteOk mdWriteOk pre ((s, e, name) :: post) hpre
  refine ⟨?_, ?_, ?_⟩
  · rw [writesOf_parsed, writesOf_parsed, writesOf_parsed, happ, hcons]
  · refine logOf_parsed_mem pages docWriteOk mdWriteOk pdf_path _ offset _ ?_
    rw [happ, hcons]
    exact List.mem_append_right _ (List.mem_cons_of_mem _ (List.mem_cons_self _ _))
  · rw [errOf_parsed, errOf_parsed, happ, hcons]

/-- C8 witness: a concrete run where only the companion write for `A.md`
fails keeps the document `A.pdf`, logs the companion failure, and raises
nothing. -/
theorem claim_C8_witness :
    writesOf (extract_pages ⟨true, some ["p1", "p2"]⟩ (fun _ => true)
        (fun p => p != "./A.md") "doc.pdf" ([] ++ (1, 2, "A") :: []) 0)
      = writesOf (extract_pages ⟨true, some ["p1", "p2"]⟩ (fun _ => true)
          (fun p => p != "./A.md") "doc.pdf" [] 0)
        ++ (joinPath (pdf_dir_of "doc.pdf") (pdf_output_filename "A"),
             .pdf (extractedPages ["p1", "p2"] (1 + 0) (2 + 0)))
        :: writesOf (extract_pages ⟨true, some ["p1", "p2"]⟩ (fun _ => true)
            (fun p => p != "./A.md") "doc.pdf" [] 0)
    ∧ Event.errorMd (joinPath (pdf_dir_of "doc.pdf") (md_output_filename "A"))
        ∈ logOf (extract_pages ⟨true, some ["p1", "p2"]⟩ (fun _ => true)
            (fun p => p != "./A.md") "doc.pdf" ([] ++ (1, 2, "A") :: []) 0)
    ∧ errOf (extract_pages ⟨true, some ["p1", "p2"]⟩ (fun _ => true)
        (fun p => p != "./A.md") "doc.pdf" ([] ++ (1, 2, "A") :: []) 0)
      = errOf (extract_pages ⟨true, some ["p1", "p2"]⟩ (fun _ => true)
          (fun p => p != "./A.md") "doc.pdf" [] 0) :=
  claim_C8 String ["p1", "p2"] "doc.pdf" [] [] 1 2 "A" 0 (fun _ => true)
    (fun p => p != "./A.md") (by decide) (by decide) (by decide) (by decide)
    (by decide) (by decide)

/-- C10: for every descriptor — wherever it occurs, provided no earlier
descriptor aborted the run — the companion file is written only after that
descriptor's document file: when both writes succeed the document write
immediately precedes the companion write in the run's write sequence, and
when the document write raises, the run performs no write at all for that
descriptor (in particular no companion file) beyond those of the preceding
descriptors. -/
theorem claim_C10 (Page : Type) (pages : List Page) (pdf_path : String)
    (pre post : List (Int × Int × String)) (s e : Int) (name : String) (offset : Int)
    (docWriteOk mdWriteOk : String → Bool)
    (hpre : (processRanges pages pages.length offset (pdf_dir_of pdf_path)
        docWriteOk mdWriteOk pre).aborted = none)
    (h1 : 1 ≤ s + offset) (h2 : s + offset ≤ e + offset)
    (h3 : e + offset ≤ (pages.length : Int)) :
    (docWriteOk (joinPath (pdf_dir_of pdf_path) (pdf_output_filename name)) = true →
      mdWriteOk (joinPath (pdf_dir_of pdf_path) (md_output_filename name)) = true →
      writesOf (extract_pages ⟨true, some pages⟩ docWriteOk mdWriteOk pdf_path
          (pre ++ (s, e, name) :: post) offset)
        = writesOf (extract_pages ⟨true, some pages⟩ docWriteOk mdWriteOk pdf_path pre offset)
          ++ (joinPath (pdf_dir_of pdf_path) (pdf_output_filename name),
               .pdf (extractedPages pages (s + offset) (e + offset)))
          :: (joinPath (pdf_dir_of pdf_path) (md_output_filename name), .text "")
          :: writesOf (extract_pages ⟨true, some pages⟩ docWriteOk mdWriteOk pdf_path
              post offset))
    ∧ (docWriteOk (joinPath (pdf_dir_of pdf_path) (pdf_output_filename name)) = false →
        errOf (extract_pages ⟨true, some pages⟩ docWriteOk mdWriteOk pdf_path
            (pre ++ (s, e, name) :: post) offset)
          = some (.writeError (joinPath (pdf_dir_of pdf_path) (pdf_output_filename name)))
        ∧ writesOf (extract_pages ⟨true, some pages⟩ docWriteOk mdWriteOk pdf_path
            (pre ++ (s, e, name) :: post) offset)
          = writesOf (extract_pages ⟨true, some pages⟩ docWriteOk mdWriteOk pdf_path
              pre offset)) := by
  have happ := processRanges_append pages pages.length offset (pdf_dir_of pdf_path)
    docWriteOk mdWriteOk pre ((s, e, name) :: post) hpre
  constructor
  · intro hdoc hmd
    rw [writesOf_parsed, writesOf_parsed, writesOf_parsed, happ,
      processRanges_cons_valid pages pages.length offset (pdf_dir_of pdf_path)
        docWriteOk mdWriteOk s e name post h1 h2 h3 hdoc hmd]
  · intro hdoc
    have hcons := processRanges_cons_docFail pages pages.length offset (pdf_dir_of pdf_path)
      docWriteOk mdWriteOk s e name post h1 h2 h3 hdoc
    constructor
    · rw [errOf_parsed, happ, hcons]
      rfl
    · rw [writesOf_parsed, writesOf_parsed, happ, hcons]
      exact List.append_nil _

/-- C10 witness: in a concrete run whose document write for `A.pdf` fails,
no companion file (indeed no file at all) is written for that descriptor. -/
theorem claim_C10_witness :
    errOf (@extract_pages String ⟨true, some ["p1", "p2"]⟩ (fun p => p != "./A.pdf")
        (fun _ => true) "doc.pdf" ([] ++ (1, 2, "A") :: []) 0)
      = some (.writeError (joinPath (pdf_dir_of "doc.pdf") (pdf_output_filename "A")))
    ∧ writesOf (@extract_pages String ⟨true, some ["p1", "p2"]⟩
        (fun p => p != "./A.pdf") (fun _ => true) "doc.pdf" ([] ++ (1, 2, "A") :: []) 0)
      = writesOf (@extract_pages String ⟨true, some ["p1", "p2"]⟩
          (fun p => p != "./A.pdf") (fun _ => true) "doc.pdf" [] 0) :=
  (claim_C10 String ["p1", "p2"] "doc.pdf" [] [] 1 2 "A" 0 (fun p => p != "./A.pdf")
    (fun _ => true) (by decide) (by decide) (by decide) (by decide)).2 (by decide)

/-- C5 as stated is false: a failure while writing a descriptor's output
document is fatal, not non-fatal. On a 2-page source with descriptors
`A` then `B`, where only the write of `A.pdf` fails, the call raises a
write error and descriptor `B` is never processed (no file at all is
written), contradicting "non-fatal and processing continues with subsequent
descriptors". -/
theorem claim_C5_counterexample :
    @extract_pages String ⟨true, some ["p1", "p2"]⟩ (fun p => p != "./A.pdf")
        (fun _ => true) "doc.pdf" [(1, 1, "A"), (2, 2, "B")] 0
      = .err (.writeError "./A.pdf") [] [.totalPagesMsg 2, .errorProcessing] := by
  decide

/-- C5 amended: per-descriptor bounds violations are non-fatal skips and a
companion-file write failure is non-fatal (the descriptor's document file
stands and later descriptors are still processed), but a failure while
writing a descriptor's output document is fatal: the call raises a write
error and no subsequent descriptor is processed. So the fatal conditions
are exactly: missing source, unparsable source, and a document-file write
failure. -/
theorem claim_C5_amended (Page : Type) (pages : List Page) (pdf_path : String)
    (pre post : List (Int × Int × String)) (s e : Int) (name : String) (offset : Int)
    (docWriteOk mdWriteOk : String → Bool)
    (hpre : (processRanges pages pages.length offset (pdf_dir_of pdf_path)
        docWriteOk mdWriteOk pre).aborted = none) :
    ((s + offset < 1 ∨ e + offset < 1 ∨ s + offset > (pages.length : Int)
        ∨ e + offset > (pages.length : Int) ∨ s + offset > e + offset) →
      writesOf (extract_pages ⟨true, some pages⟩ docWriteOk mdWriteOk pdf_path
          (pre ++ (s, e, name) :: post) offset)
        = writesOf (extract_pages ⟨true, some pages⟩ docWriteOk mdWriteOk pdf_path
            (pre ++ post) offset)
      ∧ errOf (extract_pages ⟨true, some pages⟩ docWriteOk mdWriteOk pdf_path
          (pre ++ (s, e, name) :: post) offset)
        = errOf (extract_pages ⟨true, some pages⟩ docWriteOk mdWriteOk pdf_path
            (pre ++ post) offset))
    ∧ (1 ≤ s + offset → s + offset ≤ e + offset → e + offset ≤ (pages.length : Int) →
        docWriteOk (joinPath (pdf_dir_of pdf_path) (pdf_output_filename name)) = true →
        mdWriteOk (joinPath (pdf_dir_of pdf_path) (md_output_filename name)) = false →
        writesOf (extract_pages ⟨true, some pages⟩ docWriteOk mdWriteOk pdf_path
            (pre ++ (s, e, name) :: post) offset)
          = writesOf (extract_pages ⟨true, some pages⟩ docWriteOk mdWriteOk pdf_path
              pre offset)
            ++ (joinPath (pdf_dir_of pdf_path) (pdf_output_filename name),
                 .pdf (extractedPages pages (s + offset) (e + offset)))
            :: writesOf (extract_pages ⟨true, some pages⟩ docWriteOk mdWriteOk pdf_path
                post offset)
        ∧ errOf (extract_pages ⟨true, some pages⟩ docWriteOk mdWriteOk pdf_path
            (pre ++ (s, e, name) :: post) offset)
          = errOf (extract_pages ⟨true, some pages⟩ docWriteOk mdWriteOk pdf_path
              post offset))
    ∧ (1 ≤ s + offset → s + offset ≤ e + offset → e + offset ≤ (pages.length : Int) →
        docWriteOk (joinPath (pdf_dir_of pdf_path) (pdf_output_filename name)) = false →
        errOf (extract_pages ⟨true, some pages⟩ docWriteOk mdWriteOk pdf_path
            (pre ++ (s, e, name) :: post) offset)
          = some (.writeError (joinPath (pdf_dir_of pdf_path) (pdf_output_filename name)))
        ∧ writesOf (extract_pages ⟨true, some pages⟩ docWriteOk mdWriteOk pdf_path
            (pre ++ (s, e, name) :: post) offset)
          = writesOf (extract_pages ⟨true, some pages⟩ docWriteOk mdWriteOk pdf_path
              pre offset)) := by
  have happ := processRanges_append pages pages.length offset (pdf_dir_of pdf_path)
    docWriteOk mdWriteOk pre ((s, e, name) :: post) hpre
  refine ⟨?_, ?_, ?_⟩
  · intro hbad
    obtain ⟨w, hwarn, hcons⟩ := processRanges_cons_invalid pages pages.length offset
      (pdf_dir_of pdf_path) docWriteOk mdWriteOk s e name post hbad
    have happ' := processRanges_append pages pages.length offset (pdf_dir_of pdf_path)
      docWriteOk mdWriteOk pre post hpre
    exact ⟨by rw [writesOf_parsed, writesOf_parsed, happ, happ', hcons],
      by rw [errOf_parsed, errOf_parsed, happ, happ', hcons]⟩
  · intro h1 h2 h3 hdoc hmd
    have hcons := processRanges_cons_mdFail pages pages.length offset (pdf_dir_of pdf_path)
      docWriteOk mdWriteOk s e name post h1 h2 h3 hdoc hmd
    exact ⟨by rw [writesOf_parsed, writesOf_parsed, writesOf_parsed, happ, hcons],
      by rw [errOf_parsed, errOf_parsed, happ, hcons]⟩
  · intro h1 h2 h3 hdoc
    have hcons := processRanges_cons_docFail pages pages.length offset (pdf_dir_of pdf_path)
      docWriteOk mdWriteOk s e name post h1 h2 h3 hdoc
    constructor
    · rw [errOf_parsed, happ, hcons]
      rfl
    · rw [writesOf_parsed, writesOf_parsed, happ, hcons]
      exact List.append_nil _

/-- C5 amended witness: in a concrete run whose document write for `A.pdf`
fails, the call raises the write error and performs no write. -/
theorem claim_C5_amended_witness :
    errOf (@extract_pages String ⟨true, some ["p1", "p2"]⟩ (fun p => p != "./A.pdf")
        (fun _ => true) "doc.pdf" ([] ++ (1, 1, "A") :: [(2, 2, "B")]) 0)
      = some (.writeError (joinPath (pdf_dir_of "doc.pdf") (pdf_output_filename "A")))
    ∧ writesOf (@extract_pages String ⟨true, some ["p1", "p2"]⟩
        (fun p => p != "./A.pdf") (fun _ => true) "doc.pdf"
        ([] ++ (1, 1, "A") :: [(2, 2, "B")]) 0)
      = writesOf (@extract_pages String ⟨true, some ["p1", "p2"]⟩
          (fun p => p != "./A.pdf") (fun _ => true) "doc.pdf" [] 0) :=
  (claim_C5_amended String ["p1", "p2"] "doc.pdf" [] [(2, 2, "B")] 1 1 "A" 0
    (fun p => p != "./A.pdf") (fun _ => true) (by decide)).2.2
    (by decide) (by decide) (by decide) (by decide)

/-- C4 amended witness: a concrete valid descriptor named `"Chapter 1"`
against `doc.pdf` yields the files `Chapter 1.pdf` and `Chapter 1.md`. -/
theorem claim_C4_amended_witness :
    (writesOf (@extract_pages String ⟨true, some ["p1"]⟩ (fun _ => true)
        (fun _ => true) "doc.pdf" ((1, 1, "Chapter 1") :: []) 0)).map Prod.fst
      = joinPath (pdf_dir_of "doc.pdf") (pdf_output_filename "Chapter 1")
        :: joinPath (pdf_dir_of "doc.pdf") (md_output_filename "Chapter 1")
        :: (writesOf (@extract_pages String ⟨true, some ["p1"]⟩ (fun _ => true)
            (fun _ => true) "doc.pdf" [] 0)).map Prod.fst
    ∧ pdf_output_filename "Chapter 1" = "Chapter 1.pdf"
    ∧ md_output_filename "Chapter 1" = "Chapter 1.md"
    ∧ pdf_output_filename "Chapter 1.pdf" = "Chapter 1.pdf"
    ∧ md_output_filename "Chapter 1.pdf" = "Chapter 1.pdf.md" :=
  claim_C4_amended String ["p1"] "doc.pdf" 1 1 "Chapter 1" 0 []
    (by decide) (by decide) (by decide)

end ExtraPage
